import Mathlib

/-!
Verification of the UniTAO schema-aware path resolver specification
against the repository. The SchemaPath library itself ships only its
test suite in this tree, so the resolver (path lexer, walker, suffix
renderers) is modelled from the design specification and checked
against the literal fixtures of the test file
`SchemaPathTest` (part_000). The HTTP data server
(`DataService/DataServer/dataServer.go`) is present and is embedded
directly.
-/

namespace UniTAO

/-- JSON-shaped values, as decoded by the Go test harness
(`map[string]interface{}` / `[]interface{}` / scalars / nil). -/
inductive Jv where
  | null : Jv
  | str : String → Jv
  | num : Int → Jv
  | bool : Bool → Jv
  | obj : List (String × Jv) → Jv
  | arr : List Jv → Jv

/-- Modelled from the spec: PropertySpec, one node of a schema,
discriminated by `type`; may carry a `name`, a `$ref` target local name
(the `#/definitions/` stem is kept implicit), inline `properties`, an
`items` spec for arrays and maps, a composite `key` template, and a
`contentMediaType` marker. -/
inductive PropertySpec where
  | mk (ptype : String) (pname : Option String) (refName : Option String)
       (properties : List (String × PropertySpec)) (items : Option PropertySpec)
       (keyTemplate : Option String) (contentMediaType : Option String)

def PropertySpec.ptype : PropertySpec → String
  | .mk t _ _ _ _ _ _ => t

def PropertySpec.pname : PropertySpec → Option String
  | .mk _ n _ _ _ _ _ => n

def PropertySpec.refName : PropertySpec → Option String
  | .mk _ _ r _ _ _ _ => r

def PropertySpec.properties : PropertySpec → List (String × PropertySpec)
  | .mk _ _ _ ps _ _ _ => ps

def PropertySpec.items : PropertySpec → Option PropertySpec
  | .mk _ _ _ _ it _ _ => it

def PropertySpec.keyTemplate : PropertySpec → Option String
  | .mk _ _ _ _ _ k _ => k

def PropertySpec.contentMediaType : PropertySpec → Option String
  | .mk _ _ _ _ _ _ c => c

/-- Modelled from the spec: a schema document for one record type, with
`properties` and the `definitions` that `$ref` targets resolve into. -/
structure SchemaDoc where
  id : String
  sname : Option String
  properties : List (String × PropertySpec)
  definitions : List (String × PropertySpec)

/-- A typed, versioned record: `__id`, `__type`, `__ver` and the `data`
payload (spec §3 and §6.2). -/
structure Record where
  id : String
  type : String
  ver : String
  data : Jv

/-- Association-list lookup used for all keyed collections of the model. -/
def alookup {κ α : Type} [DecidableEq κ] (k : κ) : List (κ × α) → Option α
  | [] => none
  | (k', v) :: rest => if k' = k then some v else alookup k rest

/-- Modelled from the spec: the Connection capability bundle
(`GetSchema`, `GetRecord`), here a concrete finite store. -/
structure Connection where
  schemas : List (String × SchemaDoc)
  records : List ((String × String) × Record)

/-- Modelled from the spec: the error taxonomy of §7. -/
inductive WalkErr where
  | badPath
  | badSchema
  | unknownAttribute
  | ambiguousKey
  | notFound
  | refCycleExceeded
  | internalInconsistency
deriving DecidableEq

/-- Split a character list at every occurrence of `c` (the separator is
dropped); always returns at least one piece. -/
def splitOnChar (c : Char) : List Char → List (List Char)
  | [] => [[]]
  | x :: xs =>
    let r := splitOnChar c xs
    if x = c then [] :: r
    else
      match r with
      | [] => [[x]]
      | h :: t => (x :: h) :: t

/-- Modelled from the spec: `ParseArrayPath(segment)`, the one-step
lexer primitive: `name` alone, or `name[index]` with a non-empty
bracket-free index; brackets with an empty index are BadPath (§4.1). -/
def ParseArrayPath (seg : String) : Except WalkErr (String × Option String) :=
  match splitOnChar '[' seg.data with
  | [_] => .ok (seg, none)
  | [n, r] =>
    match r.reverse with
    | ']' :: revIdx =>
      let idx := revIdx.reverse
      if idx = [] then .error .badPath
      else if ']' ∈ idx then .error .badPath
      else .ok (String.mk n, some (String.mk idx))
    | _ => .error .badPath
  | _ => .error .badPath

/-- One lexed path step: an attribute name and an optional array index. -/
structure Step where
  attr : String
  index : Option String

/-- The terminal suffix of a path: none, `/$`, `?schema`, `?ref`, `?flat`. -/
inductive PathSuffix where
  | plain
  | dollar
  | schemaView
  | refView
  | flatView
deriving DecidableEq

/-- Modelled from the spec: peel the terminal suffix off a raw path
(`?schema` / `?ref` / `?flat` after a `?`, or a trailing `/$`),
returning the remaining body. -/
def splitSuffix (cs : List Char) : Except WalkErr (List Char × PathSuffix) :=
  match splitOnChar '?' cs with
  | [b] =>
    match b.reverse with
    | '$' :: '/' :: rb => .ok (rb.reverse, .dollar)
    | _ => .ok (b, .plain)
  | [b, q] =>
    if String.mk q = "schema" then .ok (b, .schemaView)
    else if String.mk q = "ref" then .ok (b, .refView)
    else if String.mk q = "flat" then .ok (b, .flatView)
    else .error .badPath
  | _ => .error .badPath

/-- Lex the list of step segments after type and id. -/
def parseSteps : List (List Char) → Except WalkErr (List Step)
  | [] => .ok []
  | seg :: rest =>
    match ParseArrayPath (String.mk seg) with
    | .error e => .error e
    | .ok (n, i) =>
      match parseSteps rest with
      | .error e => .error e
      | .ok ss => .ok (⟨n, i⟩ :: ss)

/-- Modelled from the spec: lex a suffix-stripped path body into
`type`, `id` and the ordered steps (grammar of §4.1). -/
def lexCore (body : List Char) : Except WalkErr (String × String × List Step) :=
  match splitOnChar '/' body with
  | ty :: id :: segs =>
    if ty = [] ∨ id = [] then .error .badPath
    else
      match parseSteps segs with
      | .error e => .error e
      | .ok steps => .ok (String.mk ty, String.mk id, steps)
  | _ => .error .badPath

/-- Modelled from the spec: the full path lexer, producing `type`, `id`,
steps and the terminal suffix. -/
def lexPath (path : String) : Except WalkErr (String × String × List Step × PathSuffix) :=
  match splitSuffix path.data with
  | .error e => .error e
  | .ok (body, sfx) =>
    match lexCore body with
    | .error e => .error e
    | .ok (ty, id, steps) => .ok (ty, id, steps, sfx)

/-- Modelled from the spec: `resolveRef` — if the spec carries `$ref`,
return the referenced definition PropertySpec of the current SchemaDoc,
else the spec itself; dangling refs are BadSchema (§4.2). -/
def resolveRef (doc : SchemaDoc) (sp : PropertySpec) : Except WalkErr PropertySpec :=
  match sp.refName with
  | none => .ok sp
  | some r =>
    match alookup r doc.definitions with
    | some d => .ok d
    | none => .error .badSchema

/-- Look an attribute up inside a JSON value: objects give the field
(absent fields give `null`), `null` stays `null`, everything else is an
internal inconsistency between record shape and schema. -/
def jvGet (v : Jv) (k : String) : Except WalkErr Jv :=
  match v with
  | .null => .ok .null
  | .obj flds => .ok ((alookup k flds).getD .null)
  | _ => .error .internalInconsistency

/-- Modelled from the spec: render a composite key template against the
fields of one array element, substituting each `{fieldN}` with the
element's string field. The `Option` accumulator holds the field name
being scanned inside a brace pair. -/
def renderKeyGo (flds : List (String × Jv)) : List Char → Option (List Char) → Except WalkErr (List Char)
  | [], none => .ok []
  | [], some _ => .error .badSchema
  | c :: cs, none =>
    if c = '\x7b' then renderKeyGo flds cs (some [])
    else
      match renderKeyGo flds cs none with
      | .error e => .error e
      | .ok r => .ok (c :: r)
  | c :: cs, some acc =>
    if c = '\x7d' then
      match alookup (String.mk acc.reverse) flds with
      | some (.str s) =>
        match renderKeyGo flds cs none with
        | .error e => .error e
        | .ok r => .ok (s.data ++ r)
      | _ => .error .internalInconsistency
    else renderKeyGo flds cs (some (c :: acc))

/-- Render the item key template against one element (which must be an
object). -/
def renderKey (tmpl : String) (e : Jv) : Except WalkErr String :=
  match e with
  | .obj flds =>
    match renderKeyGo flds tmpl.data none with
    | .error e => .error e
    | .ok cs => .ok (String.mk cs)
  | _ => .error .internalInconsistency

/-- The rendered keys of all elements of a keyed array, in order. -/
def keysOf (tmpl : String) : List Jv → Except WalkErr (List String)
  | [] => .ok []
  | e :: es =>
    match renderKey tmpl e with
    | .error er => .error er
    | .ok k =>
      match keysOf tmpl es with
      | .error er => .error er
      | .ok r => .ok (k :: r)

/-- All elements whose rendered key equals the requested index, in order. -/
def matchingElems (tmpl : String) (idx : String) : List Jv → Except WalkErr (List Jv)
  | [] => .ok []
  | e :: es =>
    match renderKey tmpl e with
    | .error er => .error er
    | .ok k =>
      match matchingElems tmpl idx es with
      | .error er => .error er
      | .ok r => .ok (if k = idx then e :: r else r)

/-- Modelled from the spec: array element selection by rendered
composite key — zero matches yield `none` (walks to `nil`), exactly one
yields the element, several are AmbiguousKey (§4.4). -/
def selectByKey (tmpl idx : String) (es : List Jv) : Except WalkErr (Option Jv) :=
  match matchingElems tmpl idx es with
  | .error e => .error e
  | .ok [] => .ok none
  | .ok [e] => .ok (some e)
  | .ok _ => .error .ambiguousKey

/-- Modelled from the spec: recognize a reference scalar — a
non-collection spec whose `contentMediaType` is `inventory/<T>`;
returns the target record type `T` (§4.4, §6.3). -/
def isRefScalar (sp : PropertySpec) : Option String :=
  if sp.ptype = "object" ∨ sp.ptype = "array" ∨ sp.ptype = "map" then none
  else
    match sp.contentMediaType with
    | none => none
    | some m =>
      match splitOnChar '/' m.data with
      | [a, b] =>
        if String.mk a = "inventory" ∧ b ≠ [] then some (String.mk b) else none
      | _ => none

/-- Modelled from the spec: a reference scalar's string is a path that
is either already rooted at `<T>/...` or begins with an id under `<T>`
(§4.4); in the latter case prepend the type. -/
def mkNestedPath (t link : String) : String :=
  if List.isPrefixOf (t ++ "/").data link.data then link else t ++ "/" ++ link

/-- The implicit object spec a walk starts from: the schema document's
own `properties` (and its name, for the schema view). -/
def rootSpec (doc : SchemaDoc) : PropertySpec :=
  .mk "object" doc.sname none doc.properties none none none

/-- `GetSchema` over the concrete store; unknown types are NotFound. -/
def getSchemaE (conn : Connection) (ty : String) : Except WalkErr SchemaDoc :=
  match alookup ty conn.schemas with
  | some d => .ok d
  | none => .error .notFound

/-- `GetRecord` over the concrete store; unknown ids are NotFound. -/
def getRecordE (conn : Connection) (ty id : String) : Except WalkErr Record :=
  match alookup (ty, id) conn.records with
  | some r => .ok r
  | none => .error .notFound

/-- Modelled from the spec: one attribute move (without the index part):
objects go through `properties` (UnknownAttribute when the schema lacks
the name), maps go to their `items` spec, arrays and scalars admit no
attribute step (§4.4). -/
def childOf (sp : PropertySpec) (v : Jv) (attr : String) : Except WalkErr (PropertySpec × Jv) :=
  match sp.ptype with
  | "object" =>
    match alookup attr sp.properties with
    | none => .error .unknownAttribute
    | some cs =>
      match jvGet v attr with
      | .error e => .error e
      | .ok cv => .ok (cs, cv)
  | "map" =>
    match sp.items with
    | none => .error .badSchema
    | some cs =>
      match jvGet v attr with
      | .error e => .error e
      | .ok cv => .ok (cs, cv)
  | _ => .error .badPath

/-- Modelled from the spec: the `[index]` part of a step — the child
spec must resolve to an array whose item spec declares a key template;
the unique element with that rendered key is selected, zero matches
walk to `nil` (§4.4). -/
def indexInto (doc : SchemaDoc) (cs : PropertySpec) (cv : Jv) (idx : String) : Except WalkErr (PropertySpec × Jv) :=
  match resolveRef doc cs with
  | .error e => .error e
  | .ok csr =>
    if csr.ptype = "array" then
      match csr.items with
      | none => .error .badSchema
      | some its =>
        match resolveRef doc its with
        | .error e => .error e
        | .ok itsr =>
          match itsr.keyTemplate with
          | none => .error .badSchema
          | some tmpl =>
            match cv with
            | .arr es =>
              match selectByKey tmpl idx es with
              | .error e => .error e
              | .ok none => .ok (its, .null)
              | .ok (some e) => .ok (its, e)
            | .null => .ok (its, .null)
            | _ => .error .internalInconsistency
    else .error .badPath

/-- Modelled from the spec: the step-consuming walker for the value
modes. The current spec is `$ref`-resolved first; per the §4.4 early
exit, a `nil` value with steps remaining transitions directly to
TERMINAL with value `nil` (the `?schema` view does not use this walk:
its schema descent is `specDescend`, which proceeds independently of
values per §4.4/§9); a reference scalar met mid-path is dereferenced
depth-first by re-lexing its link as a fresh path and continuing with
the remaining steps against the referenced record (§4.4, §5). Returns
the terminal schema document, resolved spec and value. -/
def walkGo (conn : Connection) : Nat → SchemaDoc → PropertySpec → Jv → List Step → Except WalkErr (SchemaDoc × PropertySpec × Jv)
  | 0, _, _, _, _ => .error .refCycleExceeded
  | fuel + 1, doc, sp, v, steps =>
    match resolveRef doc sp with
    | .error e => .error e
    | .ok spr =>
      match steps with
      | [] => .ok (doc, spr, v)
      | s :: rest =>
        match v, isRefScalar spr with
        | .null, _ => .ok (doc, spr, .null)
        | .str link, some t =>
          match lexPath (mkNestedPath t link) with
          | .error e => .error e
          | .ok (ty, id, nsteps, .plain) =>
            match getSchemaE conn ty with
            | .error e => .error e
            | .ok doc' =>
              match getRecordE conn ty id with
              | .error e => .error e
              | .ok record =>
                walkGo conn fuel doc' (rootSpec doc') record.data (nsteps ++ s :: rest)
          | .ok _ => .error .badPath
        | _, _ =>
          match childOf spr v s.attr with
          | .error e => .error e
          | .ok (cs, cv) =>
            match s.index with
            | none => walkGo conn fuel doc cs cv rest
            | some idx =>
              match indexInto doc cs cv idx with
              | .error e => .error e
              | .ok (cs2, cv2) => walkGo conn fuel doc cs2 cv2 rest

/-- Modelled from the spec: full dereference of a terminal reference
scalar — repeatedly re-lex the link as a path rooted under the target
type, walk it, and dereference again, bounded by the fuel (§4.4). -/
def derefFully (conn : Connection) : Nat → SchemaDoc × PropertySpec × Jv → Except WalkErr (SchemaDoc × PropertySpec × Jv)
  | 0, (doc, sp, v) =>
    match v, isRefScalar sp with
    | .str _, some _ => .error .refCycleExceeded
    | _, _ => .ok (doc, sp, v)
  | fuel + 1, (doc, sp, v) =>
    match v, isRefScalar sp with
    | .str link, some t =>
      match lexPath (mkNestedPath t link) with
      | .error e => .error e
      | .ok (ty, id, nsteps, .plain) =>
        match getSchemaE conn ty with
        | .error e => .error e
        | .ok doc' =>
          match getRecordE conn ty id with
          | .error e => .error e
          | .ok record =>
            match walkGo conn fuel doc' (rootSpec doc') record.data nsteps with
            | .error e => .error e
            | .ok r' => derefFully conn fuel r'
      | .ok _ => .error .badPath
    | _, _ => .ok (doc, sp, v)

/-- Modelled from the spec: pure schema descent for the `?schema` view.
Per §4.4's early-exit parenthetical and §9, schema rendering proceeds
against the spec independently of value presence, "because schemas are
structural": this descent therefore consumes the steps against the
schema alone and never consults record data. Objects descend through
`properties` (UnknownAttribute when absent), maps through `items`, an
index descends into the resolved array's `items` spec; a scalar with
steps remaining is BadPath (§4.4: no further step is legal at a scalar
— crossing a reference needs the link value, which schema-only descent
does not have). -/
def specDescend (doc : SchemaDoc) : PropertySpec → List Step → Except WalkErr PropertySpec
  | sp, steps =>
    match resolveRef doc sp with
    | .error e => .error e
    | .ok spr =>
      match steps with
      | [] => .ok spr
      | s :: rest =>
        match
          (match spr.ptype with
           | "object" =>
             match alookup s.attr spr.properties with
             | none => Except.error WalkErr.unknownAttribute
             | some cs => Except.ok cs
           | "map" =>
             match spr.items with
             | none => Except.error WalkErr.badSchema
             | some cs => Except.ok cs
           | _ => Except.error WalkErr.badPath) with
        | .error e => .error e
        | .ok cs =>
          match s.index with
          | none => specDescend doc cs rest
          | some _ =>
            match resolveRef doc cs with
            | .error e => .error e
            | .ok csr =>
              if csr.ptype = "array" then
                match csr.items with
                | none => .error .badSchema
                | some its => specDescend doc its rest
              else .error .badPath

/-- Helper for optional string entries of the schema rendering. -/
def optEntry (k : String) : Option String → List (String × Jv)
  | none => []
  | some s => [(k, Jv.str s)]

mutual
/-- Modelled from the spec: render a (resolved) PropertySpec as a
mapping for the `?schema` view (§4.4 terminal suffix renderers). -/
def specToJv : PropertySpec → Jv
  | .mk t n _ ps it k cmt =>
    .obj (("type", Jv.str t) ::
      (optEntry "name" n ++ optEntry "key" k ++ optEntry "contentMediaType" cmt ++
        (match it with
         | none => []
         | some i => [("items", specToJv i)]) ++
        (match ps with
         | [] => []
         | _ => [("properties", Jv.obj (specFieldsToJv ps))])))

/-- Render a property list as a mapping of rendered specs. -/
def specFieldsToJv : List (String × PropertySpec) → List (String × Jv)
  | [] => []
  | (k, s) :: rest => (k, specToJv s) :: specFieldsToJv rest
end

mutual
/-- Modelled from the spec: the `?flat` renderer — every keyed array is
replaced by the ordered list of its rendered item keys, every map by
its literal key list; objects recurse field-wise, scalars and non-keyed
subtrees stay verbatim (§4.4). -/
def flatten (doc : SchemaDoc) (fuel : Nat) (spec : PropertySpec) (v : Jv) : Except WalkErr Jv :=
  match fuel with
  | 0 => .error .refCycleExceeded
  | fuel' + 1 =>
    match resolveRef doc spec with
    | .error e => .error e
    | .ok spr =>
      match spr.ptype with
      | "array" =>
        match spr.items with
        | some its =>
          match resolveRef doc its with
          | .error e => .error e
          | .ok itsr =>
            match itsr.keyTemplate, v with
            | some tmpl, .arr es =>
              match keysOf tmpl es with
              | .error e => .error e
              | .ok ks => .ok (.arr (ks.map .str))
            | some _, .null => .ok .null
            | some _, _ => .error .internalInconsistency
            | none, _ => .ok v
        | none => .ok v
      | "map" =>
        match v with
        | .obj flds => .ok (.arr (flds.map (fun p => .str p.1)))
        | _ => .ok v
      | "object" =>
        match v with
        | .obj flds =>
          match flattenFields doc fuel' spr.properties flds with
          | .error e => .error e
          | .ok out => .ok (.obj out)
        | _ => .ok v
      | _ => .ok v

/-- Flatten the fields of an object value against its property specs;
fields absent from the schema stay verbatim. -/
def flattenFields (doc : SchemaDoc) (fuel : Nat) (props : List (String × PropertySpec)) (flds : List (String × Jv)) : Except WalkErr (List (String × Jv)) :=
  match fuel with
  | 0 => .error .refCycleExceeded
  | fuel' + 1 =>
    match flds with
    | [] => .ok []
    | (k, fv) :: rest =>
      match
        (match alookup k props with
         | some cs => flatten doc fuel' cs fv
         | none => .ok fv) with
      | .error e => .error e
      | .ok fv' =>
        match flattenFields doc fuel' props rest with
        | .error e => .error e
        | .ok rest' => .ok ((k, fv') :: rest')
end

/-- `Walk(conn, path)` — lex the path, fetch the root schema and
record, then render per the terminal suffix: `?schema` renders the
spec reached by the value-independent `specDescend` (§4.4/§9); the
other modes consume the steps with `walkGo`, after which `/$` returns
the raw value, `?flat` the flattened view, the default mode the fully
dereferenced value (§4.4), and `?ref` the raw value — the repository's
test (part_000 lines 477-487) asserts `?ref` yields the raw link
`ref01/data/items/item01/attr01`, the same as `/$`, which overrides
the spec's words for this mode. -/
def WalkValue (conn : Connection) (fuel : Nat) (path : String) : Except WalkErr Jv :=
  match lexPath path with
  | .error e => .error e
  | .ok (ty, id, steps, sfx) =>
    match getSchemaE conn ty with
    | .error e => .error e
    | .ok doc =>
      match getRecordE conn ty id with
      | .error e => .error e
      | .ok record =>
        match sfx with
        | .schemaView =>
          match specDescend doc (rootSpec doc) steps with
          | .error e => .error e
          | .ok spr => .ok (specToJv spr)
        | _ =>
          match walkGo conn fuel doc (rootSpec doc) record.data steps with
          | .error e => .error e
          | .ok (d1, s1, v1) =>
            match sfx with
            | .dollar => .ok v1
            | .refView => .ok v1
            | .flatView => flatten d1 fuel s1 v1
            | _ => Except.map (fun x => x.2.2) (derefFully conn fuel (d1, s1, v1))

/-! Fixtures, transcribed from the test file `SchemaPathTest`
(src/unnamed/part_000). Specs whose JSON carries `properties` but no
`type` are normalized to objects, as the walker expects. -/

/-- A plain string scalar spec. -/
def pstr : PropertySpec := .mk "string" none none [] none none none

/-- A string scalar spec referencing records via `contentMediaType`. -/
def pmedia (m : String) : PropertySpec := .mk "string" none none [] none none (some m)

/-- An object spec deferring to a local definition via `$ref`. -/
def pref (r : String) : PropertySpec := .mk "object" none (some r) [] none none none

/-- Schema `schema1` of TestWalkInObjectAndMap. -/
def schema1Doc : SchemaDoc :=
  { id := "schema1"
    sname := some "schema1"
    properties :=
      [("name", pstr),
       ("value", pref "testValue"),
       ("mapStr", .mk "map" none none [] (some pstr) none none)]
    definitions :=
      [("testValue", .mk "object" none none [("value1", pstr), ("value2", pstr)] none none none)] }

/-- Record `schema1/data1` of TestWalkInObjectAndMap. -/
def data1Rec : Record :=
  { id := "data1", type := "schema1", ver := "0.0.1"
    data := .obj
      [("name", .str "data1"),
       ("value", .obj [("value1", .str "01"), ("value2", .str "02")]),
       ("mapStr", .obj [("keyExists", .str "exists")])] }

/-- The store of TestWalkInObjectAndMap. -/
def conn1 : Connection :=
  { schemas := [("schema1", schema1Doc)]
    records := [(("schema1", "data1"), data1Rec)] }

/-- The itemObj definition of TestWalkInArray, with its composite key
template `{key1}_{key2}`. -/
def itemObjArr : PropertySpec :=
  .mk "object" none none [("key1", pstr), ("key2", pstr)] none (some "\x7bkey1\x7d_\x7bkey2\x7d") none

/-- Schema `schemaWitArray` of TestWalkInArray. -/
def schemaWitArrayDoc : SchemaDoc :=
  { id := "schemaWitArray"
    sname := some "schemaWitArray"
    properties := [("attrArray", .mk "array" none none [] (some (pref "itemObj")) none none)]
    definitions := [("itemObj", itemObjArr)] }

/-- Record `schemaWitArray/testArray01` of TestWalkInArray. -/
def testArray01Rec : Record :=
  { id := "testArray01", type := "schemaWitArray", ver := "0.0.1"
    data := .obj
      [("attrArray", .arr
        [.obj [("key1", .str "01"), ("key2", .str "01")],
         .obj [("key1", .str "01"), ("key2", .str "02")]])] }

/-- The store of TestWalkInArray. -/
def connArray : Connection :=
  { schemas := [("schemaWitArray", schemaWitArrayDoc)]
    records := [(("schemaWitArray", "testArray01"), testArray01Rec)] }

/-- The itemObj definition of TestWalkInRef / TestWalkFlat, whose
`refIdx` scalar references `inventory/schemaRef` records. -/
def itemObjRef : PropertySpec :=
  .mk "object" none none
    [("key1", pstr), ("key2", pstr), ("refIdx", pmedia "inventory/schemaRef")]
    none (some "\x7bkey1\x7d_\x7bkey2\x7d") none

/-- Schema `schemaWithRef` of TestWalkInRef / TestWalkFlat. -/
def schemaWithRefDoc : SchemaDoc :=
  { id := "schemaWithRef"
    sname := some "schemaWitArray"
    properties := [("itemArray", .mk "array" none none [] (some (pref "itemObj")) none none)]
    definitions := [("itemObj", itemObjRef)] }

/-- Schema `schemaRef` of TestWalkInRef / TestWalkFlat. -/
def schemaRefDoc : SchemaDoc :=
  { id := "schemaRef"
    sname := some "schemaRef"
    properties := [("data", pref "data")]
    definitions :=
      [("data", .mk "object" none none
          [("name", pstr),
           ("items", .mk "map" none none [] (some (pref "itemData")) none none)]
          none none none),
       ("itemData", .mk "object" none none [("attr01", pstr), ("attr02", pstr)] none none none)] }

/-- Record `schemaWithRef/refData01` of TestWalkInRef / TestWalkFlat. -/
def refData01Rec : Record :=
  { id := "refData01", type := "schemaWithRef", ver := "0.0.1"
    data := .obj
      [("itemArray", .arr
        [.obj [("key1", .str "01"), ("key2", .str "01"),
               ("refIdx", .str "ref01/data/items/item01/attr01")],
         .obj [("key1", .str "01"), ("key2", .str "02"),
               ("refIdx", .str "ref02/data/items/item02/attr02")]])] }

/-- Record `schemaRef/ref01` of TestWalkInRef / TestWalkFlat. -/
def ref01Rec : Record :=
  { id := "ref01", type := "schemaRef", ver := "0.0.1"
    data := .obj
      [("data", .obj
        [("name", .str "ref01"),
         ("items", .obj
           [("item01", .obj [("attr01", .str "value01-01-01"), ("attr02", .str "value01-01-02")])])])] }

/-- Record `schemaRef/ref02` of TestWalkInRef / TestWalkFlat. -/
def ref02Rec : Record :=
  { id := "ref02", type := "schemaRef", ver := "0.0.1"
    data := .obj
      [("data", .obj
        [("name", .str "ref02"),
         ("items", .obj
           [("item02", .obj [("attr01", .str "value02-02-01"), ("attr02", .str "value02-02-02")])])])] }

/-- The store of TestWalkInRef / TestWalkFlat. -/
def connRef : Connection :=
  { schemas := [("schemaWithRef", schemaWithRefDoc), ("schemaRef", schemaRefDoc)]
    records :=
      [(("schemaWithRef", "refData01"), refData01Rec),
       (("schemaRef", "ref01"), ref01Rec),
       (("schemaRef", "ref02"), ref02Rec)] }

/-- The itemObj definition of TestWalkSchema carries a `name`. -/
def itemObjNamed : PropertySpec :=
  .mk "object" (some "itemObj") none [("key1", pstr), ("key2", pstr)] none (some "\x7bkey1\x7d_\x7bkey2\x7d") none

/-- Schema `schemaWitArray` of TestWalkSchema. -/
def schemaWitArrayNamedDoc : SchemaDoc :=
  { id := "schemaWitArray"
    sname := some "schemaWitArray"
    properties := [("attrArray", .mk "array" none none [] (some (pref "itemObj")) none none)]
    definitions := [("itemObj", itemObjNamed)] }

/-- Record `schemaWitArray/testArray02` of TestWalkSchema: its
`attrArray` is null. -/
def testArray02Rec : Record :=
  { id := "testArray01", type := "schemaWitArray", ver := "0.0.1"
    data := .obj [("attrArray", .null)] }

/-- The store of TestWalkSchema. -/
def connSchema : Connection :=
  { schemas := [("schemaWitArray", schemaWitArrayNamedDoc)]
    records :=
      [(("schemaWitArray", "testArray01"),
        { testArray01Rec with data := testArray01Rec.data }),
       (("schemaWitArray", "testArray02"), testArray02Rec)] }

/-- A store with the same schemas as `connSchema` but where the record
under `schemaWitArray/testArray01` has a null `attrArray`: used to
state that the `?schema` view does not depend on the record's values. -/
def connSchemaNull : Connection :=
  { schemas := [("schemaWitArray", schemaWitArrayNamedDoc)]
    records := [(("schemaWitArray", "testArray01"), testArray02Rec)] }

/-! The HTTP data server of `src/src/DataService/DataServer/dataServer.go`.
Response writes (`http.Error`, `Util.ResponseJson`) are recorded in
order; the storage layer outcomes (`data.Delete`, `data.Add`,
`data.Set`, `Util.LoadJSONPayload`) are inputs of the embedding. -/

/-- One write to the HTTP response: an `http.Error` body or a
`Util.ResponseJson` JSON body with its status code. -/
inductive HttpWrite where
  | httpError (body : String) (code : Nat)
  | jsonMap (body : List (String × String)) (code : Nat)
  | jsonRecord (r : Record) (code : Nat)

/-- The success body text of `handleDelete`:
`fmt.Sprintf("item [type/id]=[%s/%s] deleted", dataType, dataId)`. -/
def deleteMessage (dataType dataId : String) : String :=
  "item [type/id]=[" ++ dataType ++ "/" ++ dataId ++ "] deleted"

/-- `handleDelete` of dataServer.go: on a Delete error it writes the
error but does not return, so the success JSON body is written
afterwards as well. -/
def handleDelete (deleteOutcome : Nat × Option String) (dataType dataId : String) : List HttpWrite :=
  match deleteOutcome with
  | (code, some e) =>
    [.httpError e code, .jsonMap [("result", deleteMessage dataType dataId)] code]
  | (code, none) =>
    [.jsonMap [("result", deleteMessage dataType dataId)] code]

/-- Modelled from the spec: `Record.LoadMap` — load a payload mapping as
a Record when it carries the reserved string attributes `__id`, `__type`,
`__ver` and a `data` payload (wire format of §6.2). -/
def LoadMap (payload : List (String × Jv)) : Except String Record :=
  match alookup "__id" payload, alookup "__type" payload,
        alookup "__ver" payload, alookup "data" payload with
  | some (.str i), some (.str t), some (.str v), some d => .ok ⟨i, t, v, d⟩
  | _, _, _, _ => .error "failed to load map as record"

/-- Modelled from the spec: `Record.NewRecord` — wrap a raw payload as a
Record with the given type, version and id. -/
def NewRecord (dataType ver dataId : String) (payload : List (String × Jv)) : Record :=
  ⟨dataId, dataType, ver, .obj payload⟩

/-- `ParseRecord` of dataServer.go: without the NotRecord header the
payload must load as a Record whose type and id match the URL; any
failure is HTTP 400, success is HTTP 202 (StatusAccepted). With the
header, the payload is wrapped via `NewRecord`. -/
def ParseRecord (noRecordList : List String) (payload : List (String × Jv)) (dataType dataId : String) : Except (Nat × String) (Record × Nat) :=
  if noRecordList.length = 0 then
    match LoadMap payload with
    | .error e => .error (400, "failed to load JSON payload from request. Error:" ++ e)
    | .ok record =>
      if record.type ≠ dataType then
        .error (400, "invalid type. [" ++ dataType ++ "]!=[" ++ record.type ++ "]")
      else if record.id ≠ dataId then
        .error (400, "data id does not match. [" ++ dataId ++ "]!=[" ++ record.id ++ "]")
      else .ok (record, 202)
  else .ok (NewRecord dataType "0_00_00" dataId payload, 202)

/-- `handlePost` of dataServer.go; the second component is the record
passed to `data.Add`, `none` when `Add` is never called. -/
def handlePost (loadResult : Except (Nat × String) (List (String × Jv))) (noRecordList : List String) (addOutcome : Nat × Option String) (dataType dataId : String) : List HttpWrite × Option Record :=
  match loadResult with
  | .error (code, msg) =>
    ([.httpError ("failed to load JSON payload from request. Error:" ++ msg) code], none)
  | .ok payload =>
    match ParseRecord noRecordList payload dataType dataId with
    | .error (code, e) => ([.httpError e code], none)
    | .ok (record, _) =>
      match addOutcome with
      | (code2, some e) => ([.httpError e code2], some record)
      | (_, none) => ([.jsonRecord record 201], some record)

/-- `handlerPut` of dataServer.go; the second component is the record
passed to `data.Set`, `none` when `Set` is never called. -/
def handlerPut (loadResult : Except (Nat × String) (List (String × Jv))) (noRecordList : List String) (setOutcome : Nat × Option String) (dataType dataId : String) : List HttpWrite × Option Record :=
  match loadResult with
  | .error (code, msg) =>
    ([.httpError ("failed to load JSON payload from request. Error:" ++ msg) code], none)
  | .ok payload =>
    match ParseRecord noRecordList payload dataType dataId with
    | .error (code, e) => ([.httpError e code], none)
    | .ok (record, _) =>
      match setOutcome with
      | (code2, some e) => ([.httpError e code2], some record)
      | (_, none) => ([.jsonRecord record 201], some record)

/-- A well-formed record payload used as the C10 witness input. -/
def payload0 : List (String × Jv) :=
  [("__id", .str "d1"), ("__type", .str "t1"), ("__ver", .str "0.0.1"), ("data", .obj [])]

/-! Lexer lemmas used by the suffix-equivalence theorems. -/

theorem splitOnChar_of_not_mem (c : Char) (a : List Char) (h : c ∉ a) :
    splitOnChar c a = [a] := by
  induction a with
  | nil => rfl
  | cons x xs ih =>
    have hx : ¬(x = c) := fun hxc => h (by simp [hxc])
    have hxs : c ∉ xs := fun hm => h (List.mem_cons_of_mem _ hm)
    simp only [splitOnChar, if_neg hx, ih hxs]

theorem splitOnChar_append (c : Char) (a b : List Char) (h : c ∉ a) :
    splitOnChar c (a ++ c :: b) = a :: splitOnChar c b := by
  induction a with
  | nil => simp [splitOnChar]
  | cons x xs ih =>
    have hx : ¬(x = c) := fun hxc => h (by simp [hxc])
    have hxs : c ∉ xs := fun hm => h (List.mem_cons_of_mem _ hm)
    simp only [List.cons_append, List.append_eq, splitOnChar, if_neg hx, ih hxs]

theorem string_data_append (a b : String) : (a ++ b).data = a.data ++ b.data := rfl

theorem splitSuffix_refAppend (P : String) (h : '?' ∉ P.data) :
    splitSuffix (P ++ "?ref").data = .ok (P.data, .refView) := by
  have hd : (P ++ "?ref").data = P.data ++ '?' :: ['r', 'e', 'f'] := rfl
  rw [hd]
  simp only [splitSuffix, splitOnChar_append '?' P.data _ h,
    splitOnChar_of_not_mem '?' ['r', 'e', 'f'] (by decide)]
  rw [if_neg (by decide), if_pos trivial]

theorem splitSuffix_dollarAppend (P : String) (h : '?' ∉ P.data) :
    splitSuffix (P ++ "/$").data = .ok (P.data, .dollar) := by
  have hd : (P ++ "/$").data = P.data ++ ['/', '$'] := rfl
  have hm : '?' ∉ P.data ++ ['/', '$'] := by
    intro hmem
    rcases List.mem_append.mp hmem with h1 | h2
    · exact h h1
    · simp at h2
  rw [hd]
  simp only [splitSuffix, splitOnChar_of_not_mem '?' _ hm, List.reverse_append,
    List.reverse_cons, List.reverse_nil, List.nil_append, List.cons_append,
    List.reverse_reverse]

theorem lexPath_plain (P : String) (ty id : String) (steps : List Step)
    (hs : splitSuffix P.data = .ok (P.data, .plain))
    (hc : lexCore P.data = .ok (ty, id, steps)) :
    lexPath P = .ok (ty, id, steps, .plain) := by
  simp only [lexPath, hs, hc]

theorem lexPath_refAppend (P : String) (ty id : String) (steps : List Step)
    (h : '?' ∉ P.data) (hc : lexCore P.data = .ok (ty, id, steps)) :
    lexPath (P ++ "?ref") = .ok (ty, id, steps, .refView) := by
  simp only [lexPath, splitSuffix_refAppend P h, hc]

theorem lexPath_dollarAppend (P : String) (ty id : String) (steps : List Step)
    (h : '?' ∉ P.data) (hc : lexCore P.data = .ok (ty, id, steps)) :
    lexPath (P ++ "/$") = .ok (ty, id, steps, .dollar) := by
  simp only [lexPath, splitSuffix_dollarAppend P h, hc]

/-- Chaining lemma: fully dereferencing a terminal reference scalar is
the same computation as a fresh default-mode walk of the link
interpreted as a path. -/
theorem derefFully_as_walk (conn : Connection) (fuel : Nat) (d1 : SchemaDoc)
    (s1 : PropertySpec) (link t ty2 id2 : String) (nsteps : List Step)
    (href : isRefScalar s1 = some t)
    (hlex2 : lexPath (mkNestedPath t link) = .ok (ty2, id2, nsteps, .plain)) :
    Except.map (fun x => x.2.2) (derefFully conn (fuel + 1) (d1, s1, .str link)) =
      WalkValue conn fuel (mkNestedPath t link) := by
  simp only [derefFully, href, hlex2, WalkValue]
  cases hG : getSchemaE conn ty2 with
  | error e => rfl
  | ok doc' =>
    dsimp only
    cases hR : getRecordE conn ty2 id2 with
    | error e => rfl
    | ok record =>
      dsimp only
      cases hW : walkGo conn fuel doc' (rootSpec doc') record.data nsteps with
      | error e => rfl
      | ok r' =>
        obtain ⟨d, s, v⟩ := r'
        rfl

/-- C1 counterexample: at the claim's own pinned input, the walk
follows the repository's test (part_000 lines 477-487) and returns the
raw link `"ref01/data/items/item01/attr01"`, refuting the claimed
dereferenced value `"value01-01-01"`. -/
theorem walk_refSuffix_deref_counterexample :
    WalkValue connRef 32 "schemaWithRef/refData01/itemArray[01_01]/refIdx?ref" =
      .ok (.str "ref01/data/items/item01/attr01") ∧
    WalkValue connRef 32 "schemaWithRef/refData01/itemArray[01_01]/refIdx?ref" ≠
      .ok (.str "value01-01-01") :=
  ⟨rfl, fun h => by
    rw [show WalkValue connRef 32 "schemaWithRef/refData01/itemArray[01_01]/refIdx?ref" =
        Except.ok (Jv.str "ref01/data/items/item01/attr01") from rfl] at h
    exact absurd (Jv.str.inj (Except.ok.inj h)) (by decide)⟩

/-- C1 (amended): for every path P ending at a scalar whose spec
carries `contentMediaType = inventory/<T>`, `Walk(P + "?ref")` returns
the raw scalar link text, the same value as `Walk(P + "/$")` — as the
repository's test asserts — not the dereferenced value. -/
theorem walk_refSuffix_returns_raw (conn : Connection) (fuel : Nat) (P : String)
    {ty id : String} {steps : List Step} {doc : SchemaDoc} {record : Record}
    {d1 : SchemaDoc} {s1 : PropertySpec} {link t : String}
    (hq : '?' ∉ P.data)
    (hs : splitSuffix P.data = .ok (P.data, .plain))
    (hc : lexCore P.data = .ok (ty, id, steps))
    (hd : getSchemaE conn ty = .ok doc)
    (hr : getRecordE conn ty id = .ok record)
    (hw : walkGo conn fuel doc (rootSpec doc) record.data steps = .ok (d1, s1, .str link))
    (href : isRefScalar s1 = some t) :
    WalkValue conn fuel (P ++ "?ref") = .ok (.str link) ∧
    WalkValue conn fuel (P ++ "?ref") = WalkValue conn fuel (P ++ "/$") := by
  have h1 : WalkValue conn fuel (P ++ "?ref") = .ok (.str link) := by
    simp only [WalkValue, lexPath_refAppend P ty id steps hq hc, hd, hr, hw]
  have h2 : WalkValue conn fuel (P ++ "/$") = .ok (.str link) := by
    simp only [WalkValue, lexPath_dollarAppend P ty id steps hq hc, hd, hr, hw]
  exact ⟨h1, h1.trans h2.symm⟩

/-- Witness for the amended C1 at the test fixture: the `?ref` walk of
the refIdx scalar yields the raw link pinned by the test, equal to the
`/$` walk. -/
theorem walk_refSuffix_returns_raw_witness :
    WalkValue connRef 32 ("schemaWithRef/refData01/itemArray[01_01]/refIdx" ++ "?ref") =
      .ok (.str "ref01/data/items/item01/attr01") ∧
    WalkValue connRef 32 ("schemaWithRef/refData01/itemArray[01_01]/refIdx" ++ "?ref") =
      WalkValue connRef 32 ("schemaWithRef/refData01/itemArray[01_01]/refIdx" ++ "/$") :=
  walk_refSuffix_returns_raw connRef 32 "schemaWithRef/refData01/itemArray[01_01]/refIdx"
    (by decide) rfl rfl rfl rfl rfl rfl

/-- C2: for every path ending at a reference scalar with no suffix
(default mode), `Walk` interprets the scalar's string value as a new
path, recursively invokes `Walk` on it, and returns the dereferenced
result in place of the scalar. -/
theorem walk_default_derefs_reference (conn : Connection) (fuel : Nat) (P : String)
    {ty id : String} {steps : List Step} {doc : SchemaDoc} {record : Record}
    {d1 : SchemaDoc} {s1 : PropertySpec} {link t : String}
    {ty2 id2 : String} {nsteps : List Step}
    (hs : splitSuffix P.data = .ok (P.data, .plain))
    (hc : lexCore P.data = .ok (ty, id, steps))
    (hd : getSchemaE conn ty = .ok doc)
    (hr : getRecordE conn ty id = .ok record)
    (hw : walkGo conn (fuel + 1) doc (rootSpec doc) record.data steps = .ok (d1, s1, .str link))
    (href : isRefScalar s1 = some t)
    (hlex2 : lexPath (mkNestedPath t link) = .ok (ty2, id2, nsteps, .plain)) :
    WalkValue conn (fuel + 1) P = WalkValue conn fuel (mkNestedPath t link) := by
  have h1 : WalkValue conn (fuel + 1) P =
      Except.map (fun x => x.2.2) (derefFully conn (fuel + 1) (d1, s1, .str link)) := by
    simp only [WalkValue, lexPath_plain P ty id steps hs hc, hd, hr, hw]
  rw [h1, derefFully_as_walk conn fuel d1 s1 link t ty2 id2 nsteps href hlex2]

/-- Witness for C2 at the test fixture: the default walk of the refIdx
path equals the walk of its link as a path, and yields
`"value01-01-01"`. -/
theorem walk_default_derefs_reference_witness :
    WalkValue connRef 32 "schemaWithRef/refData01/itemArray[01_01]/refIdx" =
      WalkValue connRef 31 (mkNestedPath "schemaRef" "ref01/data/items/item01/attr01") ∧
    WalkValue connRef 32 "schemaWithRef/refData01/itemArray[01_01]/refIdx" =
      .ok (.str "value01-01-01") :=
  ⟨walk_default_derefs_reference connRef 31 "schemaWithRef/refData01/itemArray[01_01]/refIdx"
      rfl rfl rfl rfl rfl rfl rfl, rfl⟩

/-- C3: for every path ending at a reference scalar, the `/$` terminal
suffix suppresses dereference: `Walk(P + "/$")` returns the raw scalar
link text itself. -/
theorem walk_dollar_returns_raw (conn : Connection) (fuel : Nat) (P : String)
    {ty id : String} {steps : List Step} {doc : SchemaDoc} {record : Record}
    {d1 : SchemaDoc} {s1 : PropertySpec} {link t : String}
    (hq : '?' ∉ P.data)
    (hs : splitSuffix P.data = .ok (P.data, .plain))
    (hc : lexCore P.data = .ok (ty, id, steps))
    (hd : getSchemaE conn ty = .ok doc)
    (hr : getRecordE conn ty id = .ok record)
    (hw : walkGo conn fuel doc (rootSpec doc) record.data steps = .ok (d1, s1, .str link))
    (href : isRefScalar s1 = some t) :
    WalkValue conn fuel (P ++ "/$") = .ok (.str link) := by
  simp only [WalkValue, lexPath_dollarAppend P ty id steps hq hc, hd, hr, hw]

/-- Witness for C3 at the test fixture: the `/$` walk of the refIdx
path yields the raw link `"ref01/data/items/item01/attr01"`. -/
theorem walk_dollar_returns_raw_witness :
    WalkValue connRef 32 ("schemaWithRef/refData01/itemArray[01_01]/refIdx" ++ "/$") =
      .ok (.str "ref01/data/items/item01/attr01") ∧
    WalkValue connRef 32 "schemaWithRef/refData01/itemArray[01_01]/refIdx/$" =
      .ok (.str "ref01/data/items/item01/attr01") :=
  ⟨walk_dollar_returns_raw connRef 32 "schemaWithRef/refData01/itemArray[01_01]/refIdx"
      (by decide) rfl rfl rfl rfl rfl rfl, rfl⟩

/-- C5: for every map-typed step whose key is absent from the current
value, the walk yields `nil` with no error, and any remaining steps on
`nil` still yield `nil`. -/
theorem walk_map_missing_key_nil (conn : Connection) (fuel : Nat) (doc : SchemaDoc)
    {sp spr its itsr : PropertySpec} (flds : List (String × Jv)) (attr : String)
    (rest : List Step)
    (h1 : resolveRef doc sp = .ok spr)
    (h2 : spr.ptype = "map")
    (h3 : spr.items = some its)
    (h4 : alookup attr flds = none)
    (h5 : resolveRef doc its = .ok itsr) :
    walkGo conn (fuel + 2) doc sp (.obj flds) (⟨attr, none⟩ :: rest) = .ok (doc, itsr, .null) := by
  have hstep : walkGo conn (fuel + 2) doc sp (.obj flds) (⟨attr, none⟩ :: rest) =
      walkGo conn (fuel + 1) doc its .null rest := by
    simp only [walkGo, h1, childOf, h2, h3, jvGet, h4, Option.getD]
  rw [hstep]
  cases rest with
  | nil => simp only [walkGo, h5]
  | cons s rest' => simp only [walkGo, h5]

/-- Witness for C5 at the test fixture: stepping to the absent key
`keyNotExists` of `mapStr` yields `nil`, the full walk returns `nil`
with no error, and the present key still walks to its value. -/
theorem walk_map_missing_key_nil_witness :
    walkGo conn1 32 schema1Doc (.mk "map" none none [] (some pstr) none none)
        (.obj [("keyExists", Jv.str "exists")]) [⟨"keyNotExists", none⟩] =
      .ok (schema1Doc, pstr, .null) ∧
    WalkValue conn1 32 "schema1/data1/mapStr/keyNotExists" = .ok .null ∧
    WalkValue conn1 32 "schema1/data1/mapStr/keyExists" = .ok (.str "exists") :=
  ⟨walk_map_missing_key_nil conn1 30 schema1Doc [("keyExists", Jv.str "exists")]
      "keyNotExists" [] rfl rfl rfl rfl rfl, rfl, rfl⟩

/-- The length of the rendered key list equals the length of the array. -/
theorem keysOf_length (tmpl : String) (es : List Jv) (ks : List String)
    (hk : keysOf tmpl es = .ok ks) : ks.length = es.length := by
  induction es generalizing ks with
  | nil =>
    simp only [keysOf] at hk
    cases hk
    rfl
  | cons e es ih =>
    simp only [keysOf] at hk
    split at hk
    · exact absurd hk (by simp)
    · split at hk
      · exact absurd hk (by simp)
      · cases hk
        simp [ih _ (by assumption)]

/-- If no element renders to the requested key, the match list is empty. -/
theorem matchingElems_nil_of_not_mem (tmpl idx : String) (es : List Jv) (ks : List String)
    (hk : keysOf tmpl es = .ok ks) (hm : idx ∉ ks) :
    matchingElems tmpl idx es = .ok [] := by
  induction es generalizing ks with
  | nil => rfl
  | cons e es ih =>
    simp only [keysOf] at hk
    split at hk
    · exact absurd hk (by simp)
    · rename_i k hrk
      split at hk
      · exact absurd hk (by simp)
      · rename_i ks' hks
        cases hk
        simp only [List.mem_cons, not_or] at hm
        have hne : ¬(k = idx) := fun h => hm.1 h.symm
        simp only [matchingElems, hrk, ih ks' hks hm.2, if_neg hne]

/-- When the rendered keys are pairwise distinct and position `i` bears
the requested key, the elements matching that key are exactly the one at
position `i`. -/
theorem matchingElems_unique (tmpl idx : String) (es : List Jv) (ks : List String) (i : Nat)
    (hk : keysOf tmpl es = .ok ks) (hnd : ks.Nodup) (hi : ks.get? i = some idx) :
    ∃ e, es.get? i = some e ∧ matchingElems tmpl idx es = .ok [e] := by
  induction es generalizing ks i with
  | nil =>
    simp only [keysOf] at hk
    cases hk
    simp at hi
  | cons e es ih =>
    simp only [keysOf] at hk
    split at hk
    · exact absurd hk (by simp)
    · rename_i k hrk
      split at hk
      · exact absurd hk (by simp)
      · rename_i ks' hks
        cases hk
        rw [List.nodup_cons] at hnd
        cases i with
        | zero =>
          simp only [List.get?] at hi
          cases hi
          refine ⟨e, rfl, ?_⟩
          simp only [matchingElems, hrk,
            matchingElems_nil_of_not_mem _ _ _ _ hks hnd.1, if_pos rfl, if_true]
        | succ i =>
          simp only [List.get?] at hi
          obtain ⟨e', he', hme⟩ := ih ks' i hks hnd.2 hi
          have hk_ne : k ≠ idx := fun h => hnd.1 (h ▸ List.get?_mem hi)
          refine ⟨e', he', ?_⟩
          simp only [matchingElems, hrk, hme, if_neg hk_ne]

/-- C4: for every array step with an index, when the item key template
rendered over the array elements yields pairwise-distinct keys, the
walker's selection picks exactly the element whose rendered key equals
the index. -/
theorem selectByKey_unique (tmpl idx : String) (es : List Jv) (ks : List String) (i : Nat)
    (hk : keysOf tmpl es = .ok ks) (hnd : ks.Nodup) (hi : ks.get? i = some idx) :
    selectByKey tmpl idx es = .ok (es.get? i) := by
  obtain ⟨e, he, hme⟩ := matchingElems_unique tmpl idx es ks i hk hnd hi
  rw [he]
  simp only [selectByKey, hme]

/-- Witness for C4 at the test fixture: the template `{key1}_{key2}`
renders distinct keys over the two elements, selection at `01_01` picks
the first element, and the walks of the test paths return the selected
element and its field. -/
theorem selectByKey_unique_witness :
    selectByKey "\x7bkey1\x7d_\x7bkey2\x7d" "01_01"
        [.obj [("key1", .str "01"), ("key2", .str "01")],
         .obj [("key1", .str "01"), ("key2", .str "02")]] =
      .ok (some (.obj [("key1", .str "01"), ("key2", .str "01")])) ∧
    WalkValue connArray 32 "schemaWitArray/testArray01/attrArray[01_01]" =
      .ok (.obj [("key1", .str "01"), ("key2", .str "01")]) ∧
    WalkValue connArray 32 "schemaWitArray/testArray01/attrArray[01_02]/key2" =
      .ok (.str "02") :=
  ⟨selectByKey_unique "\x7bkey1\x7d_\x7bkey2\x7d" "01_01"
      [.obj [("key1", .str "01"), ("key2", .str "01")],
       .obj [("key1", .str "01"), ("key2", .str "02")]]
      ["01_01", "01_02"] 0 rfl (by decide) rfl, rfl, rfl⟩

theorem splitSuffix_schemaAppend (P : String) (h : '?' ∉ P.data) :
    splitSuffix (P ++ "?schema").data = .ok (P.data, .schemaView) := by
  have hd : (P ++ "?schema").data = P.data ++ '?' :: ['s', 'c', 'h', 'e', 'm', 'a'] := rfl
  rw [hd]
  simp only [splitSuffix, splitOnChar_append '?' P.data _ h,
    splitOnChar_of_not_mem '?' ['s', 'c', 'h', 'e', 'm', 'a'] (by decide)]
  rw [if_pos trivial]

theorem lexPath_schemaAppend (P : String) (ty id : String) (steps : List Step)
    (h : '?' ∉ P.data) (hc : lexCore P.data = .ok (ty, id, steps)) :
    lexPath (P ++ "?schema") = .ok (ty, id, steps, .schemaView) := by
  simp only [lexPath, splitSuffix_schemaAppend P h, hc]

/-- C6: for every path P, `Walk(P + "?schema")` renders the resolved
PropertySpec that the value-free schema descent reaches at the terminal
position, and the result does not depend on the record's values at all:
any two stores resolving the same SchemaDoc for the type (with the
record merely existing in each, possibly null-valued or different)
give identical `?schema` results, for any fuels. -/
theorem walk_schema_view_value_indep (conn conn' : Connection) (fuel fuel' : Nat) (P : String)
    {ty id : String} {steps : List Step} {doc : SchemaDoc} {record record' : Record}
    (hq : '?' ∉ P.data)
    (hs : splitSuffix P.data = .ok (P.data, .plain))
    (hc : lexCore P.data = .ok (ty, id, steps))
    (hd : getSchemaE conn ty = .ok doc)
    (hd' : getSchemaE conn' ty = .ok doc)
    (hr : getRecordE conn ty id = .ok record)
    (hr' : getRecordE conn' ty id = .ok record') :
    WalkValue conn fuel (P ++ "?schema") =
      Except.map specToJv (specDescend doc (rootSpec doc) steps) ∧
    WalkValue conn fuel (P ++ "?schema") = WalkValue conn' fuel' (P ++ "?schema") := by
  have h1 : ∀ (c : Connection) (f : Nat) (r : Record),
      getSchemaE c ty = .ok doc → getRecordE c ty id = .ok r →
      WalkValue c f (P ++ "?schema") =
        Except.map specToJv (specDescend doc (rootSpec doc) steps) := by
    intro c f r hdc hrc
    simp only [WalkValue, lexPath_schemaAppend P ty id steps hq hc, hdc, hrc]
    cases specDescend doc (rootSpec doc) steps <;> rfl
  exact ⟨h1 conn fuel record hd hr,
    (h1 conn fuel record hd hr).trans (h1 conn' fuel' record' hd' hr').symm⟩

/-- Witness for C6 at the test fixture: the `?schema` walk over
`attrArray` is the rendering of the value-free schema descent; it is
unchanged when the record's `attrArray` is replaced by null (store
`connSchemaNull`); the null-valued record's view has `type = "array"`;
and even a deeper path through the null array (`[01_01]/key1`) renders
the same terminal fragment as over the populated record. -/
theorem walk_schema_view_value_indep_witness :
    WalkValue connSchema 32 ("schemaWitArray/testArray01/attrArray" ++ "?schema") =
      Except.map specToJv
        (specDescend schemaWitArrayNamedDoc (rootSpec schemaWitArrayNamedDoc)
          [⟨"attrArray", none⟩]) ∧
    WalkValue connSchema 32 ("schemaWitArray/testArray01/attrArray" ++ "?schema") =
      WalkValue connSchemaNull 31 ("schemaWitArray/testArray01/attrArray" ++ "?schema") ∧
    WalkValue connSchema 32 "schemaWitArray/testArray02/attrArray?schema" =
      .ok (.obj [("type", .str "array"), ("items", specToJv (pref "itemObj"))]) ∧
    WalkValue connSchema 32 "schemaWitArray/testArray02/attrArray[01_01]/key1?schema" =
      WalkValue connSchema 32 "schemaWitArray/testArray01/attrArray[01_01]/key1?schema" :=
  ⟨(walk_schema_view_value_indep connSchema connSchemaNull 32 31
      "schemaWitArray/testArray01/attrArray" (by decide) rfl rfl rfl rfl rfl rfl).1,
   (walk_schema_view_value_indep connSchema connSchemaNull 32 31
      "schemaWitArray/testArray01/attrArray" (by decide) rfl rfl rfl rfl rfl rfl).2,
   rfl, rfl⟩

/-- C7: the `?flat` renderer replaces a keyed array (an array spec whose
item spec declares a key template) by the ordered sequence of the item
keys rendered via that template. -/
theorem flatten_keyed_array (doc : SchemaDoc) (fuel : Nat)
    (sp : PropertySpec) {spr its itsr : PropertySpec} {tmpl : String} (es : List Jv) {ks : List String}
    (h1 : resolveRef doc sp = .ok spr)
    (h2 : spr.ptype = "array")
    (h3 : spr.items = some its)
    (h4 : resolveRef doc its = .ok itsr)
    (h5 : itsr.keyTemplate = some tmpl)
    (h6 : keysOf tmpl es = .ok ks) :
    flatten doc (fuel + 1) sp (.arr es) = .ok (.arr (ks.map .str)) := by
  simp only [flatten, h1, h2, h3, h4, h5, h6]

/-- Witness for C7 at the test fixture: the `itemArray` spec flattens
its two elements to the rendered keys `["01_01","01_02"]`, and the full
`?flat` walk of `refData01` returns a mapping whose `itemArray` is that
key list. -/
theorem flatten_keyed_array_witness :
    flatten schemaWithRefDoc 32 (.mk "array" none none [] (some (pref "itemObj")) none none)
        (.arr [.obj [("key1", .str "01"), ("key2", .str "01"),
                     ("refIdx", .str "ref01/data/items/item01/attr01")],
               .obj [("key1", .str "01"), ("key2", .str "02"),
                     ("refIdx", .str "ref02/data/items/item02/attr02")]]) =
      .ok (.arr [.str "01_01", .str "01_02"]) ∧
    WalkValue connRef 32 "schemaWithRef/refData01?flat" =
      .ok (.obj [("itemArray", .arr [.str "01_01", .str "01_02"])]) :=
  ⟨flatten_keyed_array schemaWithRefDoc 31
      (.mk "array" none none [] (some (pref "itemObj")) none none)
      [.obj [("key1", .str "01"), ("key2", .str "01"),
             ("refIdx", .str "ref01/data/items/item01/attr01")],
       .obj [("key1", .str "01"), ("key2", .str "02"),
             ("refIdx", .str "ref02/data/items/item02/attr02")]]
      rfl rfl rfl rfl rfl rfl, rfl⟩

/-- C8: for every segment `name[index]` with a bracket-free name and a
non-empty bracket-free index, `ParseArrayPath` returns `(name, index)`
with no error, while the same name with empty brackets fails with
BadPath. -/
theorem parseArrayPath_brackets (name idx : String)
    (h1 : '[' ∉ name.data) (h2 : '[' ∉ idx.data) (h3 : ']' ∉ idx.data)
    (h4 : idx ≠ "") :
    ParseArrayPath (name ++ "[" ++ idx ++ "]") = .ok (name, some idx) ∧
    ParseArrayPath (name ++ "[]") = .error .badPath := by
  constructor
  · have hd : (name ++ "[" ++ idx ++ "]").data = name.data ++ '[' :: (idx.data ++ [']']) := by
      simp [string_data_append]
    have hnb : '[' ∉ idx.data ++ [']'] := by
      intro hmem
      rcases List.mem_append.mp hmem with ha | hb
      · exact h2 ha
      · simp at hb
    have hne : idx.data ≠ [] := by
      intro hnil
      exact h4 (show idx = "" from congrArg String.mk hnil)
    simp only [ParseArrayPath, hd, splitOnChar_append '[' name.data _ h1,
      splitOnChar_of_not_mem '[' _ hnb, List.reverse_append, List.reverse_cons,
      List.reverse_nil, List.nil_append, List.singleton_append, List.reverse_reverse,
      if_neg hne, if_neg h3]
  · have hd : (name ++ "[]").data = name.data ++ '[' :: [']'] := by
      simp [string_data_append]
    simp only [ParseArrayPath, hd, splitOnChar_append '[' name.data _ h1,
      splitOnChar_of_not_mem '[' [']'] (by decide)]
    rfl

/-- Witness for C8 at the test inputs: `abc[1]` parses to
`("abc","1")` and `abc[]` is BadPath. -/
theorem parseArrayPath_brackets_witness :
    ParseArrayPath "abc[1]" = .ok ("abc", some "1") ∧
    ParseArrayPath "abc[]" = .error .badPath :=
  parseArrayPath_brackets "abc" "1" (by decide) (by decide) (by decide) (by decide)

/-- C9: `handleDelete` writes the success JSON body
`{"result": "item [type/id]=[<type>/<id>] deleted"}` unconditionally;
when the underlying Delete returns an error, the error text is written
first and the success body is still written afterwards, because the
error branch does not return early. -/
theorem handleDelete_always_writes_success (code : Nat) (e dataType dataId : String) :
    handleDelete (code, some e) dataType dataId =
      [.httpError e code, .jsonMap [("result", deleteMessage dataType dataId)] code] ∧
    handleDelete (code, none) dataType dataId =
      [.jsonMap [("result", deleteMessage dataType dataId)] code] :=
  ⟨rfl, rfl⟩

/-- C10: without the NotRecord header, `ParseRecord` accepts the payload
with status 202 exactly when it loads as a Record whose type and id
match the URL; every failure carries HTTP status 400, and on failure
neither `handlePost` nor `handlerPut` invokes the storage mutation. -/
theorem parseRecord_validates (payload : List (String × Jv)) (dataType dataId : String) :
    ((∃ r, ParseRecord [] payload dataType dataId = .ok (r, 202)) ↔
      (∃ r, LoadMap payload = .ok r ∧ r.type = dataType ∧ r.id = dataId)) ∧
    (∀ c m, ParseRecord [] payload dataType dataId = .error (c, m) → c = 400) ∧
    (∀ addOutcome c m, ParseRecord [] payload dataType dataId = .error (c, m) →
      (handlePost (.ok payload) [] addOutcome dataType dataId).2 = none ∧
      (handlerPut (.ok payload) [] addOutcome dataType dataId).2 = none) := by
  refine ⟨⟨?_, ?_⟩, ?_, ?_⟩
  · rintro ⟨r, hr⟩
    simp only [ParseRecord, List.length_nil, eq_self_iff_true, if_true] at hr
    cases hL : LoadMap payload with
    | error e => rw [hL] at hr; exact absurd hr (by simp)
    | ok r' =>
      rw [hL] at hr
      dsimp only at hr
      by_cases h1 : r'.type ≠ dataType
      · rw [if_pos h1] at hr; exact absurd hr (by simp)
      · rw [if_neg h1] at hr
        by_cases h2 : r'.id ≠ dataId
        · rw [if_pos h2] at hr; exact absurd hr (by simp)
        · exact ⟨r', rfl, not_ne_iff.mp h1, not_ne_iff.mp h2⟩
  · rintro ⟨r, hL, ht, hi⟩
    refine ⟨r, ?_⟩
    simp [ParseRecord, hL, ht, hi]
  · intro c m herr
    simp only [ParseRecord, List.length_nil, eq_self_iff_true, if_true] at herr
    cases hL : LoadMap payload with
    | error e =>
      rw [hL] at herr
      dsimp only at herr
      have := (Except.error.inj herr)
      exact (congrArg Prod.fst this).symm
    | ok r' =>
      rw [hL] at herr
      dsimp only at herr
      by_cases h1 : r'.type ≠ dataType
      · rw [if_pos h1] at herr
        exact (congrArg Prod.fst (Except.error.inj herr)).symm
      · rw [if_neg h1] at herr
        by_cases h2 : r'.id ≠ dataId
        · rw [if_pos h2] at herr
          exact (congrArg Prod.fst (Except.error.inj herr)).symm
        · rw [if_neg h2] at herr; exact absurd herr (by simp)
  · intro addOutcome c m herr
    exact ⟨by simp [handlePost, herr], by simp [handlerPut, herr]⟩

/-- Witness for C10 at concrete inputs: a well-formed payload for
`t1/d1` is accepted per the equivalence; posting the same payload to a
mismatching id `d2` fails with 400 and calls neither Add nor Set. -/
theorem parseRecord_validates_witness :
    ((∃ r, ParseRecord [] payload0 "t1" "d1" = .ok (r, 202)) ↔
      (∃ r, LoadMap payload0 = .ok r ∧ r.type = "t1" ∧ r.id = "d1")) ∧
    ParseRecord [] payload0 "t1" "d1" = .ok (⟨"d1", "t1", "0.0.1", .obj []⟩, 202) ∧
    (400 : Nat) = 400 ∧
    ((handlePost (.ok payload0) [] (500, none) "t1" "d2").2 = none ∧
      (handlerPut (.ok payload0) [] (500, none) "t1" "d2").2 = none) :=
  ⟨(parseRecord_validates payload0 "t1" "d1").1, rfl,
    (parseRecord_validates payload0 "t1" "d2").2.1 400
      "data id does not match. [d2]!=[d1]" rfl,
    (parseRecord_validates payload0 "t1" "d2").2.2 (500, none) 400
      "data id does not match. [d2]!=[d1]" rfl⟩

end UniTAO
